import Mathlib

/-!
Verification of `hotel/pms_systems.py`: a PMS (Property Management System)
webhook adapter that normalizes inbound webhook notifications into a data
model of Hotels, Stays and Guests.

The embedding models Python JSON values (`JVal`), Python exceptions
(`PyError`), the persistence layer as an explicit record of lists (`DB`),
and the external reservation API plus the JSON decoder as an environment
(`Env`).  The functions of the source file are translated one-to-one:
`clean_webhook_payload`, `handle_webhook`, `update_tomorrows_stays`,
`stay_has_breakfast`, `get_pms` and `validate_phone_number`.
-/

/-- A JSON value, the result of decoding a payload with `json.loads` and the
shape of the `webhook_data` dict handed to `handle_webhook`.  Objects are
association lists (Python dicts hold no duplicate keys). -/
inductive JVal where
  | jnull
  | jbool (b : Bool)
  | jnum (n : Int)
  | jstr (s : String)
  | jarr (xs : List JVal)
  | jobj (fields : List (String × JVal))
deriving Repr

mutual

/-- Decidable equality for `JVal` (the deriving handler does not cover this
nested inductive, so it is spelled out). -/
def JVal.decEq : (a b : JVal) → Decidable (a = b)
  | .jnull, .jnull => .isTrue rfl
  | .jbool a, .jbool b =>
      if h : a = b then .isTrue (by rw [h]) else .isFalse (fun he => h (by cases he; rfl))
  | .jnum a, .jnum b =>
      if h : a = b then .isTrue (by rw [h]) else .isFalse (fun he => h (by cases he; rfl))
  | .jstr a, .jstr b =>
      if h : a = b then .isTrue (by rw [h]) else .isFalse (fun he => h (by cases he; rfl))
  | .jarr xs, .jarr ys =>
      match JVal.decEqList xs ys with
      | .isTrue h => .isTrue (by rw [h])
      | .isFalse h => .isFalse (fun he => h (by cases he; rfl))
  | .jobj fs, .jobj gs =>
      match JVal.decEqObj fs gs with
      | .isTrue h => .isTrue (by rw [h])
      | .isFalse h => .isFalse (fun he => h (by cases he; rfl))
  | .jnull, .jbool _ => .isFalse (fun h => nomatch h)
  | .jnull, .jnum _ => .isFalse (fun h => nomatch h)
  | .jnull, .jstr _ => .isFalse (fun h => nomatch h)
  | .jnull, .jarr _ => .isFalse (fun h => nomatch h)
  | .jnull, .jobj _ => .isFalse (fun h => nomatch h)
  | .jbool _, .jnull => .isFalse (fun h => nomatch h)
  | .jbool _, .jnum _ => .isFalse (fun h => nomatch h)
  | .jbool _, .jstr _ => .isFalse (fun h => nomatch h)
  | .jbool _, .jarr _ => .isFalse (fun h => nomatch h)
  | .jbool _, .jobj _ => .isFalse (fun h => nomatch h)
  | .jnum _, .jnull => .isFalse (fun h => nomatch h)
  | .jnum _, .jbool _ => .isFalse (fun h => nomatch h)
  | .jnum _, .jstr _ => .isFalse (fun h => nomatch h)
  | .jnum _, .jarr _ => .isFalse (fun h => nomatch h)
  | .jnum _, .jobj _ => .isFalse (fun h => nomatch h)
  | .jstr _, .jnull => .isFalse (fun h => nomatch h)
  | .jstr _, .jbool _ => .isFalse (fun h => nomatch h)
  | .jstr _, .jnum _ => .isFalse (fun h => nomatch h)
  | .jstr _, .jarr _ => .isFalse (fun h => nomatch h)
  | .jstr _, .jobj _ => .isFalse (fun h => nomatch h)
  | .jarr _, .jnull => .isFalse (fun h => nomatch h)
  | .jarr _, .jbool _ => .isFalse (fun h => nomatch h)
  | .jarr _, .jnum _ => .isFalse (fun h => nomatch h)
  | .jarr _, .jstr _ => .isFalse (fun h => nomatch h)
  | .jarr _, .jobj _ => .isFalse (fun h => nomatch h)
  | .jobj _, .jnull => .isFalse (fun h => nomatch h)
  | .jobj _, .jbool _ => .isFalse (fun h => nomatch h)
  | .jobj _, .jnum _ => .isFalse (fun h => nomatch h)
  | .jobj _, .jstr _ => .isFalse (fun h => nomatch h)
  | .jobj _, .jarr _ => .isFalse (fun h => nomatch h)

/-- Decidable equality for lists of JSON values. -/
def JVal.decEqList : (xs ys : List JVal) → Decidable (xs = ys)
  | [], [] => .isTrue rfl
  | [], _ :: _ => .isFalse (fun h => nomatch h)
  | _ :: _, [] => .isFalse (fun h => nomatch h)
  | x :: xs, y :: ys =>
      match JVal.decEq x y with
      | .isFalse h => .isFalse (fun he => h (by cases he; rfl))
      | .isTrue h1 =>
        match JVal.decEqList xs ys with
        | .isTrue h2 => .isTrue (by rw [h1, h2])
        | .isFalse h => .isFalse (fun he => h (by cases he; rfl))

/-- Decidable equality for JSON object field lists. -/
def JVal.decEqObj : (xs ys : List (String × JVal)) → Decidable (xs = ys)
  | [], [] => .isTrue rfl
  | [], _ :: _ => .isFalse (fun h => nomatch h)
  | _ :: _, [] => .isFalse (fun h => nomatch h)
  | (k, x) :: xs, (k', y) :: ys =>
      if hk : k = k' then
        match JVal.decEq x y with
        | .isFalse h => .isFalse (fun he => h (by cases he; rfl))
        | .isTrue h1 =>
          match JVal.decEqObj xs ys with
          | .isTrue h2 => .isTrue (by rw [hk, h1, h2])
          | .isFalse h => .isFalse (fun he => h (by cases he; rfl))
      else .isFalse (fun he => hk (by cases he; rfl))

end

instance : DecidableEq JVal := JVal.decEq

deriving instance DecidableEq for Except

/-- The Python exceptions that can arise in `pms_systems.py`:
`KeyError` from dict indexing, `TypeError` from indexing or iterating a
non-container, Django's `DoesNotExist`/`MultipleObjectsReturned` from
`Hotel.objects.get`, the `ValueError` raised by `clean_webhook_payload`,
and the external service's `APIError`. -/
inductive PyError where
  | keyError (k : String)
  | typeError
  | doesNotExist
  | multipleObjectsReturned
  | valueError (msg : String)
  | apiError (msg : String)
deriving DecidableEq, Repr

/-- Whether an exception is the external service's `APIError` — the only
exception class named in the `except` clauses of `handle_webhook` and
`stay_has_breakfast`. -/
def PyError.isAPIError : PyError → Bool
  | .apiError _ => true
  | _ => false

/-- Association-list lookup for JSON object fields (Python dict lookup). -/
def jlookup : List (String × JVal) → String → Option JVal
  | [], _ => none
  | (k, v) :: rest, key => if k = key then some v else jlookup rest key

/-- Python subscription `value[key]` with a string key: returns the field of
an object, raises `KeyError` when the key is absent, and `TypeError` when
the value is not a dict. -/
def JVal.getKey (v : JVal) (key : String) : Except PyError JVal :=
  match v with
  | .jobj fields =>
    match jlookup fields key with
    | some x => .ok x
    | none => .error (.keyError key)
  | _ => .error .typeError

/-- Python iteration `for event in events`: lists yield their elements,
strings their characters, dicts their keys; the remaining values are not
iterable and raise `TypeError`. -/
def jIterate : JVal → Except PyError (List JVal)
  | .jarr xs => .ok xs
  | .jstr s => .ok (s.data.map (fun c => .jstr (String.mk [c])))
  | .jobj fields => .ok (fields.map (fun kv => .jstr kv.1))
  | _ => .error .typeError

/-- Modelled from the spec: a Hotel record of `hotel/models.py` (not under
`src/`), identified by a PMS-specific external id and carrying an internal
id (spec section 3). -/
structure Hotel where
  id : Nat
  pms_hotel_id : JVal
deriving DecidableEq, Repr

/-- Modelled from the spec: a Stay record of `hotel/models.py` (not under
`src/`), uniquely identified by (hotel, pms_reservation_id, pms_guest_id),
carrying check-in/check-out dates, a status and an optional guest
reference (spec section 3).  The guest reference is stored by the Guest's
natural key, its phone. -/
structure Stay where
  hotel : Nat
  pms_reservation_id : JVal
  pms_guest_id : JVal
  checkin : JVal
  checkout : JVal
  status : JVal
  guest : Option JVal
deriving DecidableEq, Repr

/-- Modelled from the spec: a Guest record of `hotel/models.py` (not under
`src/`), keyed by phone number with a display name (spec section 3). -/
structure Guest where
  phone : JVal
  name : JVal
deriving DecidableEq, Repr

/-- The persistence layer: the stored Hotel, Stay and Guest records. -/
structure DB where
  hotels : List Hotel
  stays : List Stay
  guests : List Guest
deriving DecidableEq, Repr

/-- The unique key of a Stay: (hotel, pms_reservation_id, pms_guest_id). -/
def stayKey (s : Stay) : Nat × JVal × JVal :=
  (s.hotel, s.pms_reservation_id, s.pms_guest_id)

/-- Modelled from the spec: the external collaborators of the adapter.
`parse` is `json.loads` (standard library), returning a structured value
for well-formed JSON text and failing otherwise; `reservationDetails` and
`guestDetails` are `get_reservation_details` / `get_guest_details` of
`hotel/external_api.py` (not under `src/`), each returning JSON text or
failing with an `APIError` message (spec section 6). -/
structure Env where
  parse : String → Option JVal
  reservationDetails : JVal → Except String String
  guestDetails : JVal → Except String String

/-- Translation of `PMS_Mews.clean_webhook_payload`: decode the payload with
`json.loads`; a decode failure is re-raised as a `ValueError`. -/
def clean_webhook_payload (parse : String → Option JVal) (payload : String) :
    Except PyError JVal :=
  match parse payload with
  | some cleaned_data => .ok cleaned_data
  | none => .error (.valueError "Error decoding")

/-- Modelled from the spec: the parse step of the external `phonenumbers`
library.  Parsing with no default region succeeds only for a string in
international format — a plus sign followed by digits — and fails with a
`NumberParseException` otherwise (spec sections 4.3 and 8). -/
def phonenumbers_parse (s : String) : Option (List Char) :=
  match s.data with
  | '+' :: rest =>
    if rest.isEmpty then none
    else if rest.all Char.isDigit then some rest else none
  | _ => none

/-- Modelled from the spec: `phonenumbers.is_valid_number`, a structural
validity check on the parsed number; E.164 national significant numbers
carry between 8 and 15 digits. -/
def phonenumbers_is_valid_number (parsed : List Char) : Bool :=
  decide (8 ≤ parsed.length ∧ parsed.length ≤ 15)

/-- Translation of `validate_phone_number`: parse the number (no default
region), return the validity check; a `NumberParseException` is caught and
converted to `false`. -/
def validate_phone_number (phone_number : String) : Bool :=
  match phonenumbers_parse phone_number with
  | some parsed_number => phonenumbers_is_valid_number parsed_number
  | none => false

/-- Translation of `Hotel.objects.get(pms_hotel_id=...)`: exactly one match
is returned; none raises `DoesNotExist`, several raise
`MultipleObjectsReturned`. -/
def getHotel (hotels : List Hotel) (pid : JVal) : Except PyError Hotel :=
  match hotels.filter (fun h => decide (h.pms_hotel_id = pid)) with
  | [] => .error .doesNotExist
  | [h] => .ok h
  | _ => .error .multipleObjectsReturned

/-- The field update applied to a Stay matched by `update_or_create`: the
`defaults` dict sets checkin, checkout and status. -/
def stayUpd (k : Nat × JVal × JVal) (cin cout st : JVal) (s : Stay) : Stay :=
  if stayKey s = k then { s with checkin := cin, checkout := cout, status := st } else s

/-- The update applied by `stay.guest = guest; stay.save()`: the guest
reference of the Stay with the given key is set. -/
def stayGuestUpd (k : Nat × JVal × JVal) (g : JVal) (s : Stay) : Stay :=
  if stayKey s = k then { s with guest := some g } else s

/-- Translation of `Stay.objects.update_or_create(hotel=..,
pms_reservation_id=.., pms_guest_id=.., defaults={checkin, checkout,
status})`: update the matching record in place, or append a new record
with the key fields, the defaults and no guest reference. -/
def updateOrCreateStay (l : List Stay) (k : Nat × JVal × JVal) (cin cout st : JVal) :
    List Stay :=
  if l.any (fun s => decide (stayKey s = k)) then l.map (stayUpd k cin cout st)
  else l ++ [⟨k.1, k.2.1, k.2.2, cin, cout, st, none⟩]

/-- Translation of `stay.guest = guest; stay.save()` on the record keyed
`k`. -/
def setStayGuest (l : List Stay) (k : Nat × JVal × JVal) (g : JVal) : List Stay :=
  l.map (stayGuestUpd k g)

/-- The field update applied to a Guest matched by `update_or_create`: the
`defaults` dict sets the name. -/
def guestUpd (p n : JVal) (g : Guest) : Guest :=
  if g.phone = p then { g with name := n } else g

/-- Translation of `Guest.objects.update_or_create(phone=..,
defaults={name: ..})`. -/
def updateOrCreateGuest (l : List Guest) (p n : JVal) : List Guest :=
  if l.any (fun g => decide (g.phone = p)) then l.map (guestUpd p n)
  else l ++ [⟨p, n⟩]

/-- Translation of the body of the `for event in events` loop of
`PMS_Mews.handle_webhook`, for one event: read `event["Value"]["ReservationId"]`,
fetch and decode the reservation details, read the guest id, fetch and
decode the guest details, upsert the Stay (the `defaults` dict reads
CheckInDate, CheckOutDate and Status), read the phone, upsert the Guest,
and link the Stay to the Guest.  The result is the database after the
writes that happened before the first exception, if any, together with
that exception.  The source also calls `validate_phone_number(phone)` and
discards its result; the call neither writes state nor raises for the
inputs the validator accepts (spec section 4.3 converts parse failures to
a result), so it does not appear in the state function. -/
def processEvent (env : Env) (hid : Nat) (db : DB) (event : JVal) :
    DB × Option PyError :=
  match event.getKey "Value" with
  | .error e => (db, some e)
  | .ok value =>
  match value.getKey "ReservationId" with
  | .error e => (db, some e)
  | .ok res_id =>
  match env.reservationDetails res_id with
  | .error m => (db, some (.apiError m))
  | .ok rs =>
  match clean_webhook_payload env.parse rs with
  | .error e => (db, some e)
  | .ok res_details =>
  match res_details.getKey "GuestId" with
  | .error e => (db, some e)
  | .ok guest_id =>
  match env.guestDetails guest_id with
  | .error m => (db, some (.apiError m))
  | .ok gs =>
  match clean_webhook_payload env.parse gs with
  | .error e => (db, some e)
  | .ok guest_details =>
  match res_details.getKey "CheckInDate" with
  | .error e => (db, some e)
  | .ok cin =>
  match res_details.getKey "CheckOutDate" with
  | .error e => (db, some e)
  | .ok cout =>
  match res_details.getKey "Status" with
  | .error e => (db, some e)
  | .ok status =>
  let db1 : DB :=
    { db with stays := updateOrCreateStay db.stays (hid, res_id, guest_id) cin cout status }
  match guest_details.getKey "Phone" with
  | .error e => (db1, some e)
  | .ok phone =>
  match guest_details.getKey "Name" with
  | .error e => (db1, some e)
  | .ok name =>
  let db2 : DB := { db1 with guests := updateOrCreateGuest db1.guests phone name }
  let db3 : DB := { db2 with stays := setStayGuest db2.stays (hid, res_id, guest_id) phone }
  (db3, none)

/-- The `for event in events` loop: events are processed in order; the
first exception stops the loop, keeping the writes made so far. -/
def processEvents (env : Env) (hid : Nat) : DB → List JVal → DB × Option PyError
  | db, [] => (db, none)
  | db, e :: rest =>
    match processEvent env hid db e with
    | (db', none) => processEvents env hid db' rest
    | (db', some err) => (db', some err)

/-- The `try` block of `PMS_Mews.handle_webhook`: look the hotel up by its
PMS id, read `webhook_data["Events"]`, iterate over the events. -/
def handleBody (env : Env) (db : DB) (webhook_data : JVal) (id_hotel : JVal) :
    DB × Option PyError :=
  match getHotel db.hotels id_hotel with
  | .error e => (db, some e)
  | .ok hotel =>
    match webhook_data.getKey "Events" with
    | .error e => (db, some e)
    | .ok events =>
      match jIterate events with
      | .error e => (db, some e)
      | .ok evs => processEvents env hotel.id db evs

/-- Translation of `PMS_Mews.handle_webhook`: read
`webhook_data["HotelId"]` (outside the `try` block), run the body, catch
`APIError` only (printing it), and return `True`.  The result pairs the
final database with either the returned flag or the propagated
exception. -/
def handle_webhook (env : Env) (db : DB) (webhook_data : JVal) :
    DB × Except PyError Bool :=
  match webhook_data.getKey "HotelId" with
  | .error e => (db, .error e)
  | .ok id_hotel =>
    match handleBody env db webhook_data id_hotel with
    | (db', none) => (db', .ok true)
    | (db', some err) => if err.isAPIError then (db', .ok true) else (db', .error err)

/-- Translation of `PMS_Mews.update_tomorrows_stays`: the body is
`return True` — no call to the external service and no database write. -/
def update_tomorrows_stays (_env : Env) (db : DB) : Bool × DB :=
  (true, db)

/-- Translation of `PMS_Mews.stay_has_breakfast`: fetch and decode the
reservation details of the stay's reservation id and return the
`BreakfastIncluded` field; an `APIError` is caught (and printed), falling
through to an implicit `return None`. -/
def stay_has_breakfast (env : Env) (stay : Stay) : Except PyError (Option JVal) :=
  match env.reservationDetails stay.pms_reservation_id with
  | .error _ => .ok none
  | .ok rs =>
    match clean_webhook_payload env.parse rs with
    | .error e => .error e
    | .ok res_details =>
      match res_details.getKey "BreakfastIncluded" with
      | .error e => .error e
      | .ok b => .ok (some b)

/-- Python `str.capitalize()`: first character uppercased, the rest
lowercased. -/
def pyCapitalize (s : String) : String :=
  match s.data with
  | [] => ""
  | c :: rest => String.mk (c.toUpper :: rest.map Char.toLower)

/-- The classes bound in the module namespace of `pms_systems.py`, as
`inspect.getmembers(current_module, inspect.isclass)` reports them: the
imported `ABC`, `APIError`, `Guest`, `Hotel`, `Stay` and the locally
defined `PMS` and `PMS_Mews`. -/
def moduleClassNames : List String :=
  ["ABC", "APIError", "Guest", "Hotel", "PMS", "PMS_Mews", "Stay"]

/-- An instantiated adapter object, remembered by the name of its class. -/
structure PMSInstance where
  className : String
deriving DecidableEq, Repr

/-- Translation of the `PMS.name` property: the class name with its first
four characters (the fixed prefix) sliced off, `longname[4:]`. -/
def PMSInstance.name (a : PMSInstance) : String :=
  a.className.drop 4

/-- Translation of `get_pms`: build `"PMS_" + name.capitalize()`, scan the
module's class names, and return a fresh instance when a class of that
name exists, else the falsy sentinel `False` (modelled as `none`). -/
def get_pms (name : String) : Option PMSInstance :=
  let fullname := "PMS_" ++ pyCapitalize name
  if fullname ∈ moduleClassNames then some ⟨fullname⟩ else none

/-- A database write performed by `handle_webhook`: a Stay upsert, a Guest
upsert, or the linking of a Stay to a Guest. -/
inductive DBWrite where
  | stayUp (hid : Nat) (rid gid cin cout st : JVal)
  | guestUp (phone name : JVal)
  | stayLink (hid : Nat) (rid gid phone : JVal)
deriving DecidableEq, Repr

/-- Apply one write to the database. -/
def applyWrite : DBWrite → DB → DB
  | .stayUp hid rid gid cin cout st, db =>
    { db with stays := updateOrCreateStay db.stays (hid, rid, gid) cin cout st }
  | .guestUp phone name, db =>
    { db with guests := updateOrCreateGuest db.guests phone name }
  | .stayLink hid rid gid phone, db =>
    { db with stays := setStayGuest db.stays (hid, rid, gid) phone }

/-- Apply a list of writes in order. -/
def applyWrites (W : List DBWrite) (db : DB) : DB :=
  W.foldl (fun d w => applyWrite w d) db

/-- The writes one event performs, together with the exception that stops
it, if any.  This mirrors the control flow of `processEvent`, which reads
nothing from the database, so the outcome depends only on the environment
and the event. -/
def eventWrites (env : Env) (hid : Nat) (event : JVal) :
    List DBWrite × Option PyError :=
  match event.getKey "Value" with
  | .error e => ([], some e)
  | .ok value =>
  match value.getKey "ReservationId" with
  | .error e => ([], some e)
  | .ok res_id =>
  match env.reservationDetails res_id with
  | .error m => ([], some (.apiError m))
  | .ok rs =>
  match clean_webhook_payload env.parse rs with
  | .error e => ([], some e)
  | .ok res_details =>
  match res_details.getKey "GuestId" with
  | .error e => ([], some e)
  | .ok guest_id =>
  match env.guestDetails guest_id with
  | .error m => ([], some (.apiError m))
  | .ok gs =>
  match clean_webhook_payload env.parse gs with
  | .error e => ([], some e)
  | .ok guest_details =>
  match res_details.getKey "CheckInDate" with
  | .error e => ([], some e)
  | .ok cin =>
  match res_details.getKey "CheckOutDate" with
  | .error e => ([], some e)
  | .ok cout =>
  match res_details.getKey "Status" with
  | .error e => ([], some e)
  | .ok status =>
  match guest_details.getKey "Phone" with
  | .error e => ([.stayUp hid res_id guest_id cin cout status], some e)
  | .ok phone =>
  match guest_details.getKey "Name" with
  | .error e => ([.stayUp hid res_id guest_id cin cout status], some e)
  | .ok name =>
  ([.stayUp hid res_id guest_id cin cout status, .guestUp phone name,
    .stayLink hid res_id guest_id phone], none)

/-- The writes a whole event list performs, stopping at the first
exception. -/
def webhookWrites (env : Env) (hid : Nat) : List JVal → List DBWrite × Option PyError
  | [] => ([], none)
  | e :: rest =>
    match eventWrites env hid e with
    | (w, some err) => (w, some err)
    | (w, none) =>
      match webhookWrites env hid rest with
      | (w', r) => (w ++ w', r)

/-- The action of one write on the stays list alone (guest upserts leave
it unchanged). -/
def applyStayW : DBWrite → List Stay → List Stay
  | .stayUp hid rid gid cin cout st, l => updateOrCreateStay l (hid, rid, gid) cin cout st
  | .stayLink hid rid gid phone, l => setStayGuest l (hid, rid, gid) phone
  | .guestUp _ _, l => l

/-- The action of a write list on the stays list. -/
def applyStays (W : List DBWrite) (l : List Stay) : List Stay :=
  W.foldl (fun l w => applyStayW w l) l

/-- The action of one write on a single Stay record. -/
def stayElemUpd : DBWrite → Stay → Stay
  | .stayUp hid rid gid cin cout st, s => stayUpd (hid, rid, gid) cin cout st s
  | .stayLink hid rid gid phone, s => stayGuestUpd (hid, rid, gid) phone s
  | .guestUp _ _, s => s

/-- The combined action of a write list on a single Stay record. -/
def chainStay (W : List DBWrite) (s : Stay) : Stay :=
  W.foldl (fun s w => stayElemUpd w s) s

/-- The payload of the last Stay upsert for a given key in a write list. -/
def lastStayData : List DBWrite → Nat × JVal × JVal → Option (JVal × JVal × JVal)
  | [], _ => none
  | w :: W, k =>
    match lastStayData W k with
    | some d => some d
    | none =>
      match w with
      | .stayUp hid rid gid cin cout st =>
        if (hid, rid, gid) = k then some (cin, cout, st) else none
      | _ => none

/-- The phone of the last Stay-to-Guest link for a given key in a write
list. -/
def lastStayLink : List DBWrite → Nat × JVal × JVal → Option JVal
  | [], _ => none
  | w :: W, k =>
    match lastStayLink W k with
    | some g => some g
    | none =>
      match w with
      | .stayLink hid rid gid phone => if (hid, rid, gid) = k then some phone else none
      | _ => none

/-- A Stay record rewritten to the final values a write list assigns to its
key: the data fields of the last upsert and the phone of the last link,
where present. -/
def finalStay (W : List DBWrite) (s : Stay) : Stay :=
  let s1 :=
    match lastStayData W (stayKey s) with
    | some (cin, cout, st) => { s with checkin := cin, checkout := cout, status := st }
    | none => s
  match lastStayLink W (stayKey s) with
  | some g => { s1 with guest := some g }
  | none => s1

/-- Well-formedness of a write list for the stays component, relative to a
set of keys already upserted: every link write is preceded by an upsert of
the same key.  The write lists `handle_webhook` produces have this shape —
`stay.guest = guest; stay.save()` always follows the
`Stay.objects.update_or_create` of the same key. -/
def wfStays : List (Nat × JVal × JVal) → List DBWrite → Prop
  | _, [] => True
  | K, .stayUp hid rid gid _ _ _ :: W => wfStays ((hid, rid, gid) :: K) W
  | K, .stayLink hid rid gid _ :: W => (hid, rid, gid) ∈ K ∧ wfStays K W
  | K, .guestUp _ _ :: W => wfStays K W

/-- The action of one write on the guests list alone (stay writes leave it
unchanged). -/
def applyGuestW : DBWrite → List Guest → List Guest
  | .guestUp phone name, l => updateOrCreateGuest l phone name
  | .stayUp _ _ _ _ _ _, l => l
  | .stayLink _ _ _ _, l => l

/-- The action of a write list on the guests list. -/
def applyGuests (W : List DBWrite) (l : List Guest) : List Guest :=
  W.foldl (fun l w => applyGuestW w l) l

/-- The action of one write on a single Guest record. -/
def guestElemUpd : DBWrite → Guest → Guest
  | .guestUp phone name, g => guestUpd phone name g
  | .stayUp _ _ _ _ _ _, g => g
  | .stayLink _ _ _ _, g => g

/-- The combined action of a write list on a single Guest record. -/
def chainGuest (W : List DBWrite) (g : Guest) : Guest :=
  W.foldl (fun g w => guestElemUpd w g) g

/-- The name of the last Guest upsert for a given phone in a write list. -/
def lastGuestName : List DBWrite → JVal → Option JVal
  | [], _ => none
  | w :: W, p =>
    match lastGuestName W p with
    | some n => some n
    | none =>
      match w with
      | .guestUp phone name => if phone = p then some name else none
      | _ => none

/-- A Guest record rewritten to the final name a write list assigns to its
phone, where present. -/
def finalGuest (W : List DBWrite) (g : Guest) : Guest :=
  match lastGuestName W g.phone with
  | some n => { g with name := n }
  | none => g

/-- A concrete reservation-details object for test runs: the fields the
external service documents (spec section 6). -/
def resObjT : JVal :=
  .jobj [("GuestId", .jstr "G1"), ("CheckInDate", .jstr "2024-01-01"),
         ("CheckOutDate", .jstr "2024-01-02"), ("Status", .jstr "Confirmed"),
         ("BreakfastIncluded", .jbool true)]

/-- A concrete guest-details object for test runs. -/
def guestObjT : JVal :=
  .jobj [("Phone", .jstr "+14155552671"), ("Name", .jstr "Ada Lovelace")]

/-- A concrete guest-details object whose phone fails validation. -/
def guestObjBad : JVal :=
  .jobj [("Phone", .jstr "abc"), ("Name", .jstr "No Phone")]

/-- A second reservation-details object, referencing the guest with the
invalid phone. -/
def resObj2T : JVal :=
  .jobj [("GuestId", .jstr "G2"), ("CheckInDate", .jstr "2024-02-01"),
         ("CheckOutDate", .jstr "2024-02-03"), ("Status", .jstr "Started"),
         ("BreakfastIncluded", .jbool false)]

/-- A concrete environment: reservation "R1" resolves to `resObjT`,
guest "G1" to `guestObjT`, guest "G2" to `guestObjBad`; every other lookup
fails with an `APIError`, and the only well-formed payloads are the three
fixed strings. -/
def envT : Env where
  parse := fun s =>
    if s = "RESJSON" then some resObjT
    else if s = "RESJSON2" then some resObj2T
    else if s = "GUESTJSON" then some guestObjT
    else if s = "GUESTBADJSON" then some guestObjBad
    else none
  reservationDetails := fun v =>
    if v = JVal.jstr "R1" then .ok "RESJSON"
    else if v = JVal.jstr "R2" then .ok "RESJSON2"
    else .error "api down"
  guestDetails := fun v =>
    if v = JVal.jstr "G1" then .ok "GUESTJSON"
    else if v = JVal.jstr "G2" then .ok "GUESTBADJSON"
    else .error "api down"

/-- An environment whose reservation lookups deliver text that is not
well-formed JSON. -/
def envBadJson : Env where
  parse := fun _ => none
  reservationDetails := fun _ => .ok "not json"
  guestDetails := fun _ => .ok "not json"

/-- The known hotel of the test database. -/
def hotelT : Hotel := ⟨1, .jnum 7⟩

/-- A test database holding one hotel and no stays or guests. -/
def dbT : DB := ⟨[hotelT], [], []⟩

/-- A webhook payload with the known hotel id and one event referencing
reservation "R1". -/
def wdT : JVal :=
  .jobj [("HotelId", .jnum 7),
         ("Events", .jarr [.jobj [("Value", .jobj [("ReservationId", .jstr "R1")])]])]

/-- A webhook payload referencing a reservation unknown to the external
service, so that processing it hits an `APIError`. -/
def wdApiT : JVal :=
  .jobj [("HotelId", .jnum 7),
         ("Events", .jarr [.jobj [("Value", .jobj [("ReservationId", .jstr "R9")])]])]

/-- A webhook payload whose single event references reservation "R2", whose
guest record carries a phone number the validator rejects. -/
def wdBadPhoneT : JVal :=
  .jobj [("HotelId", .jnum 7),
         ("Events", .jarr [.jobj [("Value", .jobj [("ReservationId", .jstr "R2")])]])]

/-- A test stay linked to reservation "R1". -/
def stayT : Stay :=
  ⟨1, .jstr "R1", .jstr "G1", .jstr "2024-01-01", .jstr "2024-01-02",
   .jstr "Confirmed", some (.jstr "+14155552671")⟩

theorem stayKey_stayUpd (k : Nat × JVal × JVal) (cin cout st : JVal) (s : Stay) :
    stayKey (stayUpd k cin cout st s) = stayKey s := by
  unfold stayUpd
  split <;> rfl

theorem stayKey_stayGuestUpd (k : Nat × JVal × JVal) (g : JVal) (s : Stay) :
    stayKey (stayGuestUpd k g s) = stayKey s := by
  unfold stayGuestUpd
  split <;> rfl

theorem phone_guestUpd (p n : JVal) (g : Guest) : (guestUpd p n g).phone = g.phone := by
  unfold guestUpd
  split <;> rfl

theorem filter_map_comm {α : Type} (p : α → Bool) (f : α → α)
    (h : ∀ s, p (f s) = p s) :
    ∀ l : List α, (l.map f).filter p = (l.filter p).map f := by
  intro l
  induction l with
  | nil => rfl
  | cons a l ih =>
    simp only [List.map_cons, List.filter_cons, h a]
    cases hpa : p a <;> simp [ih]

theorem map_self_of_mem {α : Type} (f : α → α) :
    ∀ l : List α, (∀ s ∈ l, f s = s) → l.map f = l := by
  intro l
  induction l with
  | nil => exact fun _ => rfl
  | cons a l ih =>
    intro h
    simp only [List.map_cons]
    rw [h a (by simp), ih (fun s hs => h s (by simp [hs]))]

theorem filter_nil_of_any_false {α : Type} (p : α → Bool) :
    ∀ l : List α, l.any p = false → l.filter p = [] := by
  intro l
  induction l with
  | nil => exact fun _ => rfl
  | cons a l ih =>
    intro h
    simp only [List.any_cons, Bool.or_eq_false_iff] at h
    simp [List.filter_cons, h.1, ih h.2]

theorem filter_singleton_of_any {α : Type} (p : α → Bool) (l : List α)
    (hAny : l.any p = true) (hLen : (l.filter p).length ≤ 1) :
    ∃ a, l.filter p = [a] ∧ p a = true := by
  obtain ⟨x, hx, hpx⟩ := List.any_eq_true.mp hAny
  have hmem : x ∈ l.filter p := List.mem_filter.mpr ⟨hx, hpx⟩
  match hf : l.filter p with
  | [] => rw [hf] at hmem; cases hmem
  | [a] =>
    refine ⟨a, rfl, ?_⟩
    have : a ∈ l.filter p := by rw [hf]; simp
    exact (List.mem_filter.mp this).2
  | a :: b :: rest => rw [hf] at hLen; simp at hLen

theorem upsertStay_filter (l : List Stay) (k : Nat × JVal × JVal) (cin cout st g : JVal)
    (h : (l.filter fun s => decide (stayKey s = k)).length ≤ 1) :
    ((setStayGuest (updateOrCreateStay l k cin cout st) k g).filter
        fun s => decide (stayKey s = k)) =
      [⟨k.1, k.2.1, k.2.2, cin, cout, st, some g⟩] := by
  have hg : ∀ s : Stay,
      (decide (stayKey (stayGuestUpd k g s) = k) : Bool) = decide (stayKey s = k) := by
    intro s; rw [stayKey_stayGuestUpd]
  have hu : ∀ s : Stay,
      (decide (stayKey (stayUpd k cin cout st s) = k) : Bool) = decide (stayKey s = k) := by
    intro s; rw [stayKey_stayUpd]
  unfold setStayGuest updateOrCreateStay
  by_cases hAny : l.any (fun s => decide (stayKey s = k)) = true
  · rw [if_pos hAny, List.map_map, filter_map_comm _ _ (by intro s; simp [Function.comp, hg, hu])]
    obtain ⟨a, hfa, hpa⟩ := filter_singleton_of_any _ l hAny h
    rw [hfa]
    have hk : stayKey a = k := of_decide_eq_true hpa
    subst hk
    simp [Function.comp, stayUpd, stayGuestUpd, stayKey]
  · rw [if_neg hAny, List.map_append, List.filter_append]
    rw [filter_map_comm _ _ hg, filter_nil_of_any_false _ l (by simpa using hAny)]
    have hknew : stayKey (⟨k.1, k.2.1, k.2.2, cin, cout, st, none⟩ : Stay) = k := rfl
    simp [stayGuestUpd, hknew, stayKey]

theorem upsertGuest_filter (l : List Guest) (p n : JVal)
    (h : (l.filter fun g => decide (g.phone = p)).length ≤ 1) :
    ((updateOrCreateGuest l p n).filter fun g => decide (g.phone = p)) = [⟨p, n⟩] := by
  have hp : ∀ g : Guest,
      (decide ((guestUpd p n g).phone = p) : Bool) = decide (g.phone = p) := by
    intro g; rw [phone_guestUpd]
  unfold updateOrCreateGuest
  by_cases hAny : l.any (fun g => decide (g.phone = p)) = true
  · rw [if_pos hAny, filter_map_comm _ _ hp]
    obtain ⟨a, hfa, hpa⟩ := filter_singleton_of_any _ l hAny h
    rw [hfa]
    have hk : a.phone = p := of_decide_eq_true hpa
    simp [guestUpd, hk]
  · rw [if_neg hAny, List.filter_append,
      filter_nil_of_any_false _ l (by simpa using hAny)]
    simp

theorem handle_webhook_single_event_run
    (env : Env) (db : DB) (wd event value resObj guestObj : JVal)
    (hid rid gid cin cout st phone nm : JVal) (rs gs : String) (hotel : Hotel)
    (h1 : wd.getKey "HotelId" = .ok hid)
    (h2 : getHotel db.hotels hid = .ok hotel)
    (h3 : wd.getKey "Events" = .ok (JVal.jarr [event]))
    (h4 : event.getKey "Value" = .ok value)
    (h5 : value.getKey "ReservationId" = .ok rid)
    (h6 : env.reservationDetails rid = .ok rs)
    (h7 : env.parse rs = some resObj)
    (h8 : resObj.getKey "GuestId" = .ok gid)
    (h9 : env.guestDetails gid = .ok gs)
    (h10 : env.parse gs = some guestObj)
    (h11 : resObj.getKey "CheckInDate" = .ok cin)
    (h12 : resObj.getKey "CheckOutDate" = .ok cout)
    (h13 : resObj.getKey "Status" = .ok st)
    (h14 : guestObj.getKey "Phone" = .ok phone)
    (h15 : guestObj.getKey "Name" = .ok nm) :
    handle_webhook env db wd =
      ({ db with
          stays := setStayGuest
            (updateOrCreateStay db.stays (hotel.id, rid, gid) cin cout st)
            (hotel.id, rid, gid) phone,
          guests := updateOrCreateGuest db.guests phone nm }, .ok true) := by
  unfold handle_webhook handleBody processEvents processEvent clean_webhook_payload
  simp only [h1, h2, h3, jIterate, h4, h5, h6, h7, h8, h9, h10, h11, h12, h13, h14, h15]
  simp only [processEvents]

/-- C1: for a webhook payload with a known hotel id and exactly one event
referencing a reservation/guest pair, `handle_webhook` reports success and
leaves exactly one Stay record keyed by (hotel, pms_reservation_id,
pms_guest_id), whose checkin, checkout and status equal the CheckInDate,
CheckOutDate and Status fields of the fetched reservation details, and
exactly one Guest record keyed by the fetched phone whose name equals the
fetched Name, the Stay's guest reference pointing at that Guest. -/
theorem handle_webhook_single_event_upserts
    (env : Env) (db : DB) (wd event value resObj guestObj : JVal)
    (hid rid gid cin cout st phone nm : JVal) (rs gs : String) (hotel : Hotel)
    (h1 : wd.getKey "HotelId" = .ok hid)
    (h2 : getHotel db.hotels hid = .ok hotel)
    (h3 : wd.getKey "Events" = .ok (JVal.jarr [event]))
    (h4 : event.getKey "Value" = .ok value)
    (h5 : value.getKey "ReservationId" = .ok rid)
    (h6 : env.reservationDetails rid = .ok rs)
    (h7 : env.parse rs = some resObj)
    (h8 : resObj.getKey "GuestId" = .ok gid)
    (h9 : env.guestDetails gid = .ok gs)
    (h10 : env.parse gs = some guestObj)
    (h11 : resObj.getKey "CheckInDate" = .ok cin)
    (h12 : resObj.getKey "CheckOutDate" = .ok cout)
    (h13 : resObj.getKey "Status" = .ok st)
    (h14 : guestObj.getKey "Phone" = .ok phone)
    (h15 : guestObj.getKey "Name" = .ok nm)
    (hu1 : (db.stays.filter fun s => decide (stayKey s = (hotel.id, rid, gid))).length ≤ 1)
    (hu2 : (db.guests.filter fun g => decide (g.phone = phone)).length ≤ 1) :
    (handle_webhook env db wd).2 = .ok true ∧
    ((handle_webhook env db wd).1.stays.filter
        fun s => decide (stayKey s = (hotel.id, rid, gid))) =
      [⟨hotel.id, rid, gid, cin, cout, st, some phone⟩] ∧
    ((handle_webhook env db wd).1.guests.filter
        fun g => decide (g.phone = phone)) = [⟨phone, nm⟩] := by
  rw [handle_webhook_single_event_run env db wd event value resObj guestObj hid rid gid
    cin cout st phone nm rs gs hotel h1 h2 h3 h4 h5 h6 h7 h8 h9 h10 h11 h12 h13 h14 h15]
  refine ⟨rfl, ?_, ?_⟩
  · exact upsertStay_filter db.stays (hotel.id, rid, gid) cin cout st phone hu1
  · exact upsertGuest_filter db.guests phone nm hu2

/-- Witness for C1 at the concrete test fixture. -/
theorem handle_webhook_single_event_upserts_witness :
    (handle_webhook envT dbT wdT).2 = .ok true ∧
    ((handle_webhook envT dbT wdT).1.stays.filter
        fun s => decide (stayKey s = (hotelT.id, JVal.jstr "R1", JVal.jstr "G1"))) =
      [⟨hotelT.id, JVal.jstr "R1", JVal.jstr "G1", JVal.jstr "2024-01-01",
        JVal.jstr "2024-01-02", JVal.jstr "Confirmed",
        some (JVal.jstr "+14155552671")⟩] ∧
    ((handle_webhook envT dbT wdT).1.guests.filter
        fun g => decide (g.phone = JVal.jstr "+14155552671")) =
      [⟨JVal.jstr "+14155552671", JVal.jstr "Ada Lovelace"⟩] :=
  handle_webhook_single_event_upserts envT dbT wdT _ _ resObjT guestObjT
    _ _ _ _ _ _ _ _ _ _ hotelT rfl rfl rfl rfl rfl rfl rfl rfl rfl rfl rfl rfl rfl
    rfl rfl (by decide) (by decide)

theorem applyWrites_append (A B : List DBWrite) (db : DB) :
    applyWrites (A ++ B) db = applyWrites B (applyWrites A db) := by
  unfold applyWrites
  exact List.foldl_append _ _ A B

theorem processEvent_eq_writes (env : Env) (hid : Nat) (db : DB) (event : JVal) :
    processEvent env hid db event =
      (applyWrites (eventWrites env hid event).1 db, (eventWrites env hid event).2) := by
  unfold processEvent eventWrites
  repeat' split
  all_goals rfl

theorem processEvents_eq_writes (env : Env) (hid : Nat) :
    ∀ (evs : List JVal) (db : DB),
      processEvents env hid db evs =
        (applyWrites (webhookWrites env hid evs).1 db, (webhookWrites env hid evs).2) := by
  intro evs
  induction evs with
  | nil => intro db; rfl
  | cons ev rest ih =>
    intro db
    simp only [processEvents, webhookWrites, processEvent_eq_writes]
    cases hw : eventWrites env hid ev with
    | mk w r =>
      cases r with
      | none =>
        simp only [ih]
        cases hw2 : webhookWrites env hid rest with
        | mk w2 r2 => simp [applyWrites_append]
      | some err => rfl

theorem applyWrite_split (w : DBWrite) (db : DB) :
    applyWrite w db = ⟨db.hotels, applyStayW w db.stays, applyGuestW w db.guests⟩ := by
  cases w <;> rfl

theorem applyWrites_split (W : List DBWrite) :
    ∀ db : DB,
      applyWrites W db = ⟨db.hotels, applyStays W db.stays, applyGuests W db.guests⟩ := by
  induction W with
  | nil => intro db; rfl
  | cons w W ih =>
    intro db
    show applyWrites W (applyWrite w db) = _
    rw [ih, applyWrite_split]
    rfl

theorem stayKey_stayElemUpd (w : DBWrite) (s : Stay) :
    stayKey (stayElemUpd w s) = stayKey s := by
  cases w with
  | stayUp hid rid gid cin cout st => exact stayKey_stayUpd _ _ _ _ _
  | stayLink hid rid gid g => exact stayKey_stayGuestUpd _ _ _
  | guestUp p n => rfl

theorem any_key_map (f : Stay → Stay) (hf : ∀ s, stayKey (f s) = stayKey s)
    (l : List Stay) (k : Nat × JVal × JVal) :
    (l.map f).any (fun s => decide (stayKey s = k)) =
      l.any (fun s => decide (stayKey s = k)) := by
  rw [List.any_map]
  have : ((fun s => decide (stayKey s = k)) ∘ f) = (fun s => decide (stayKey s = k)) := by
    funext s
    simp [Function.comp, hf]
  rw [this]

theorem any_key_applyStayW (w : DBWrite) (l : List Stay) (k : Nat × JVal × JVal)
    (h : l.any (fun s => decide (stayKey s = k)) = true) :
    (applyStayW w l).any (fun s => decide (stayKey s = k)) = true := by
  cases w with
  | stayUp hid rid gid cin cout st =>
    simp only [applyStayW]
    unfold updateOrCreateStay
    split
    · rwa [any_key_map _ (fun s => stayKey_stayUpd _ _ _ _ s) l k]
    · rw [List.any_append]
      simp [h]
  | stayLink hid rid gid g =>
    simp only [applyStayW]
    unfold setStayGuest
    rwa [any_key_map _ (fun s => stayKey_stayGuestUpd _ _ s) l k]
  | guestUp p n => exact h

theorem any_key_applyStays (W : List DBWrite) :
    ∀ (l : List Stay) (k : Nat × JVal × JVal),
      l.any (fun s => decide (stayKey s = k)) = true →
      (applyStays W l).any (fun s => decide (stayKey s = k)) = true := by
  induction W with
  | nil => intro l k h; exact h
  | cons w W ih => intro l k h; exact ih _ k (any_key_applyStayW w l k h)

theorem upKey_present_applyStayW (hid : Nat) (rid gid cin cout st : JVal) (l : List Stay) :
    (applyStayW (DBWrite.stayUp hid rid gid cin cout st) l).any
      (fun s => decide (stayKey s = (hid, rid, gid))) = true := by
  simp only [applyStayW]
  unfold updateOrCreateStay
  split
  · rename_i hAny
    rwa [any_key_map _ (fun s => stayKey_stayUpd _ _ _ _ s) l _]
  · rw [List.any_append]
    simp [stayKey]

theorem upKey_present (W : List DBWrite) :
    ∀ (l : List Stay) (hid : Nat) (rid gid cin cout st : JVal),
      DBWrite.stayUp hid rid gid cin cout st ∈ W →
      (applyStays W l).any (fun s => decide (stayKey s = (hid, rid, gid))) = true := by
  induction W with
  | nil => intro l hid rid gid cin cout st h; cases h
  | cons w W ih =>
    intro l hid rid gid cin cout st h
    rcases List.mem_cons.mp h with h1 | h2
    · have : applyStays (w :: W) l = applyStays W (applyStayW w l) := rfl
      rw [this, ← h1]
      exact any_key_applyStays W _ _ (h1 ▸ upKey_present_applyStayW hid rid gid cin cout st l)
    · exact ih _ _ _ _ _ _ _ h2

theorem applyStayW_eq_map_of_present (w : DBWrite) (l : List Stay)
    (h : ∀ (hid : Nat) (rid gid cin cout st : JVal),
      w = DBWrite.stayUp hid rid gid cin cout st →
      l.any (fun s => decide (stayKey s = (hid, rid, gid))) = true) :
    applyStayW w l = l.map (stayElemUpd w) := by
  cases w with
  | stayUp hid rid gid cin cout st =>
    simp only [applyStayW]
    unfold updateOrCreateStay
    rw [if_pos (h hid rid gid cin cout st rfl)]
    rfl
  | stayLink hid rid gid g => rfl
  | guestUp p n => exact (map_self_of_mem _ l (fun s _ => rfl)).symm

theorem applyStays_eq_map (W : List DBWrite) :
    ∀ l : List Stay,
      (∀ (hid : Nat) (rid gid cin cout st : JVal),
        DBWrite.stayUp hid rid gid cin cout st ∈ W →
        l.any (fun s => decide (stayKey s = (hid, rid, gid))) = true) →
      applyStays W l = l.map (chainStay W) := by
  induction W with
  | nil =>
    intro l h
    exact (map_self_of_mem _ l (fun s _ => rfl)).symm
  | cons w W ih =>
    intro l h
    show applyStays W (applyStayW w l) = _
    rw [applyStayW_eq_map_of_present w l
      (fun hid rid gid cin cout st he => h hid rid gid cin cout st (by rw [he] at *; exact List.mem_cons_self _ _))]
    rw [ih (l.map (stayElemUpd w)) ?pres]
    case pres =>
      intro hid rid gid cin cout st hmem
      rw [any_key_map _ (fun s => stayKey_stayElemUpd w s) l _]
      exact h hid rid gid cin cout st (List.mem_cons_of_mem _ hmem)
    rw [List.map_map]
    rfl

theorem chainStay_eq_final : ∀ (W : List DBWrite) (s : Stay), chainStay W s = finalStay W s := by
  intro W
  induction W with
  | nil => intro s; rfl
  | cons w W ih =>
    intro s
    rw [show chainStay (w :: W) s = chainStay W (stayElemUpd w s) from rfl, ih]
    obtain ⟨sh, sr, sg, sc, so, ss, sgu⟩ := s
    cases w with
    | guestUp p n =>
      unfold finalStay
      simp only [stayElemUpd, lastStayData, lastStayLink, stayKey]
      cases hd : lastStayData W (sh, sr, sg) with
      | some d =>
        obtain ⟨dc, dco, dst⟩ := d
        cases lastStayLink W (sh, sr, sg) <;> rfl
      | none =>
        cases lastStayLink W (sh, sr, sg) <;> rfl
    | stayUp hid rid gid cin cout st =>
      simp only [stayElemUpd, stayUpd, stayKey]
      by_cases hk : ((sh, sr, sg) : Nat × JVal × JVal) = (hid, rid, gid)
      · rw [if_pos hk]
        unfold finalStay
        simp only [lastStayData, lastStayLink, stayKey]
        cases hd : lastStayData W (sh, sr, sg) with
        | some d =>
          obtain ⟨dc, dco, dst⟩ := d
          cases hl : lastStayLink W (sh, sr, sg) <;> rfl
        | none =>
          rw [if_pos hk.symm]
          cases hl : lastStayLink W (sh, sr, sg) <;> rfl
      · rw [if_neg hk]
        unfold finalStay
        simp only [lastStayData, lastStayLink, stayKey]
        cases hd : lastStayData W (sh, sr, sg) with
        | some d =>
          obtain ⟨dc, dco, dst⟩ := d
          cases hl : lastStayLink W (sh, sr, sg) <;> rfl
        | none =>
          rw [if_neg (fun he => hk he.symm)]
          cases hl : lastStayLink W (sh, sr, sg) <;> rfl
    | stayLink hid rid gid g =>
      simp only [stayElemUpd, stayGuestUpd, stayKey]
      by_cases hk : ((sh, sr, sg) : Nat × JVal × JVal) = (hid, rid, gid)
      · rw [if_pos hk]
        unfold finalStay
        simp only [lastStayData, lastStayLink, stayKey]
        cases hd : lastStayData W (sh, sr, sg) with
        | some d =>
          obtain ⟨dc, dco, dst⟩ := d
          cases hl : lastStayLink W (sh, sr, sg) with
          | some g2 => rfl
          | none => rw [if_pos hk.symm]
        | none =>
          cases hl : lastStayLink W (sh, sr, sg) with
          | some g2 => rfl
          | none => rw [if_pos hk.symm]
      · rw [if_neg hk]
        unfold finalStay
        simp only [lastStayData, lastStayLink, stayKey]
        cases hd : lastStayData W (sh, sr, sg) with
        | some d =>
          obtain ⟨dc, dco, dst⟩ := d
          cases hl : lastStayLink W (sh, sr, sg) with
          | some g2 => rfl
          | none => rw [if_neg (fun he => hk he.symm)]
        | none =>
          cases hl : lastStayLink W (sh, sr, sg) with
          | some g2 => rfl
          | none => rw [if_neg (fun he => hk he.symm)]

theorem stayGuestUpd_checkin (k : Nat × JVal × JVal) (g : JVal) (s : Stay) :
    (stayGuestUpd k g s).checkin = s.checkin := by
  unfold stayGuestUpd; split <;> rfl

theorem stayGuestUpd_checkout (k : Nat × JVal × JVal) (g : JVal) (s : Stay) :
    (stayGuestUpd k g s).checkout = s.checkout := by
  unfold stayGuestUpd; split <;> rfl

theorem stayGuestUpd_status (k : Nat × JVal × JVal) (g : JVal) (s : Stay) :
    (stayGuestUpd k g s).status = s.status := by
  unfold stayGuestUpd; split <;> rfl

theorem stayUpd_guest (k : Nat × JVal × JVal) (cin cout st : JVal) (s : Stay) :
    (stayUpd k cin cout st s).guest = s.guest := by
  unfold stayUpd; split <;> rfl

theorem mem_updateOrCreateStay_data (l : List Stay) (k : Nat × JVal × JVal)
    (cin cout st : JVal) :
    ∀ s ∈ updateOrCreateStay l k cin cout st, stayKey s = k →
      s.checkin = cin ∧ s.checkout = cout ∧ s.status = st := by
  unfold updateOrCreateStay
  split
  · intro s hs hk
    obtain ⟨s0, hs0, rfl⟩ := List.mem_map.mp hs
    have h0 : stayKey s0 = k := by rw [stayKey_stayUpd] at hk; exact hk
    simp [stayUpd, h0]
  · rename_i hAny
    intro s hs hk
    rcases List.mem_append.mp hs with h1 | h2
    · exact absurd (List.any_eq_true.mpr ⟨s, h1, by simp [hk]⟩) hAny
    · have : s = ⟨k.1, k.2.1, k.2.2, cin, cout, st, none⟩ := by simpa using h2
      subst this
      exact ⟨rfl, rfl, rfl⟩

theorem applyStays_data_preserved (k : Nat × JVal × JVal) (cin cout st : JVal) :
    ∀ (W : List DBWrite) (l : List Stay), lastStayData W k = none →
      (∀ s ∈ l, stayKey s = k → s.checkin = cin ∧ s.checkout = cout ∧ s.status = st) →
      ∀ s ∈ applyStays W l, stayKey s = k →
        s.checkin = cin ∧ s.checkout = cout ∧ s.status = st := by
  intro W
  induction W with
  | nil => intro l _ hbase; exact hbase
  | cons w W ih =>
    intro l hlast hbase
    have hW : lastStayData W k = none := by
      simp only [lastStayData] at hlast
      cases hW2 : lastStayData W k with
      | none => rfl
      | some d => rw [hW2] at hlast; exact absurd hlast (by simp)
    have hw : ∀ (hid : Nat) (rid gid c o t : JVal),
        w = DBWrite.stayUp hid rid gid c o t → ((hid, rid, gid) : Nat × JVal × JVal) ≠ k := by
      intro hid rid gid c o t hwe hke
      subst hwe
      simp only [lastStayData, hW] at hlast
      rw [if_pos hke] at hlast
      exact absurd hlast (by simp)
    show ∀ s ∈ applyStays W (applyStayW w l), _
    apply ih (applyStayW w l) hW
    intro s hs hk
    cases w with
    | guestUp p n => exact hbase s hs hk
    | stayLink hid rid gid g =>
      obtain ⟨s0, hs0, rfl⟩ := List.mem_map.mp hs
      have hk0 : stayKey s0 = k := by rw [stayKey_stayGuestUpd] at hk; exact hk
      rw [stayGuestUpd_checkin, stayGuestUpd_checkout, stayGuestUpd_status]
      exact hbase s0 hs0 hk0
    | stayUp hid rid gid c o t =>
      have hne : ((hid, rid, gid) : Nat × JVal × JVal) ≠ k := hw hid rid gid c o t rfl
      simp only [applyStayW] at hs
      unfold updateOrCreateStay at hs
      split at hs
      · obtain ⟨s0, hs0, rfl⟩ := List.mem_map.mp hs
        have hk0 : stayKey s0 = k := by rw [stayKey_stayUpd] at hk; exact hk
        have : stayUpd (hid, rid, gid) c o t s0 = s0 := by
          unfold stayUpd
          rw [if_neg (fun he => hne (by rw [← he, hk0]))]
        rw [this]
        rw [this] at hk
        exact hbase s0 hs0 hk
      · rcases List.mem_append.mp hs with h1 | h2
        · exact hbase s h1 hk
        · have : s = ⟨hid, rid, gid, c, o, t, none⟩ := by simpa using h2
          subst this
          exact absurd hk hne

theorem applyStays_lastData (W : List DBWrite) :
    ∀ (l : List Stay) (s : Stay), s ∈ applyStays W l →
      ∀ d, lastStayData W (stayKey s) = some d →
        s.checkin = d.1 ∧ s.checkout = d.2.1 ∧ s.status = d.2.2 := by
  induction W with
  | nil => intro l s hs d hd; exact absurd hd (by simp [lastStayData])
  | cons w W ih =>
    intro l s hs d hd
    simp only [lastStayData] at hd
    cases hW : lastStayData W (stayKey s) with
    | some d2 =>
      rw [hW] at hd
      have hd2 : d2 = d := by simpa using hd
      subst hd2
      exact ih (applyStayW w l) s hs d2 hW
    | none =>
      simp only [hW] at hd
      cases w with
      | guestUp p n => exact absurd hd (by simp)
      | stayLink hid rid gid g => exact absurd hd (by simp)
      | stayUp hid rid gid c o t =>
        have hd2 : (if ((hid, rid, gid) : Nat × JVal × JVal) = stayKey s
            then some ((c, o, t) : JVal × JVal × JVal) else none) = some d := hd
        by_cases hke : ((hid, rid, gid) : Nat × JVal × JVal) = stayKey s
        · rw [if_pos hke] at hd2
          have hd' : d = (c, o, t) := by simpa using hd2.symm
          subst hd'
          refine applyStays_data_preserved (stayKey s) c o t W
            (applyStayW (DBWrite.stayUp hid rid gid c o t) l) hW ?_ s hs rfl
          intro s2 hs2 hk2
          have hs3 : s2 ∈ updateOrCreateStay l (hid, rid, gid) c o t := hs2
          exact mem_updateOrCreateStay_data l (hid, rid, gid) c o t s2 hs3 (by rw [hk2, ← hke])
        · rw [if_neg hke] at hd2
          exact absurd hd2 (by simp)

theorem mem_setStayGuest_guest (l : List Stay) (k : Nat × JVal × JVal) (g : JVal) :
    ∀ s ∈ setStayGuest l k g, stayKey s = k → s.guest = some g := by
  intro s hs hk
  obtain ⟨s0, hs0, rfl⟩ := List.mem_map.mp hs
  have h0 : stayKey s0 = k := by rw [stayKey_stayGuestUpd] at hk; exact hk
  simp [stayGuestUpd, h0]

theorem applyStays_guest_preserved (k : Nat × JVal × JVal) (ph : JVal) :
    ∀ (W : List DBWrite) (l : List Stay), lastStayLink W k = none →
      l.any (fun s => decide (stayKey s = k)) = true →
      (∀ s ∈ l, stayKey s = k → s.guest = some ph) →
      ∀ s ∈ applyStays W l, stayKey s = k → s.guest = some ph := by
  intro W
  induction W with
  | nil => intro l _ _ hbase; exact hbase
  | cons w W ih =>
    intro l hlast hpres hbase
    have hW : lastStayLink W k = none := by
      simp only [lastStayLink] at hlast
      cases hW2 : lastStayLink W k with
      | none => rfl
      | some g => rw [hW2] at hlast; exact absurd hlast (by simp)
    have hw : ∀ (hid : Nat) (rid gid g : JVal),
        w = DBWrite.stayLink hid rid gid g → ((hid, rid, gid) : Nat × JVal × JVal) ≠ k := by
      intro hid rid gid g hwe hke
      subst hwe
      simp only [lastStayLink, hW] at hlast
      rw [if_pos hke] at hlast
      exact absurd hlast (by simp)
    show ∀ s ∈ applyStays W (applyStayW w l), _
    apply ih (applyStayW w l) hW (any_key_applyStayW w l k hpres)
    intro s hs hk
    cases w with
    | guestUp p n => exact hbase s hs hk
    | stayLink hid rid gid g =>
      have hne : ((hid, rid, gid) : Nat × JVal × JVal) ≠ k := hw hid rid gid g rfl
      obtain ⟨s0, hs0, rfl⟩ := List.mem_map.mp hs
      have hk0 : stayKey s0 = k := by rw [stayKey_stayGuestUpd] at hk; exact hk
      have heq : stayGuestUpd (hid, rid, gid) g s0 = s0 := by
        unfold stayGuestUpd
        rw [if_neg (fun he => hne (by rw [← he, hk0]))]
      rw [heq]
      exact hbase s0 hs0 hk0
    | stayUp hid rid gid c o t =>
      simp only [applyStayW] at hs
      unfold updateOrCreateStay at hs
      split at hs
      · obtain ⟨s0, hs0, rfl⟩ := List.mem_map.mp hs
        have hk0 : stayKey s0 = k := by rw [stayKey_stayUpd] at hk; exact hk
        rw [stayUpd_guest]
        exact hbase s0 hs0 hk0
      · rename_i hAny
        rcases List.mem_append.mp hs with h1 | h2
        · exact hbase s h1 hk
        · have hnew : s = ⟨hid, rid, gid, c, o, t, none⟩ := by simpa using h2
          exfalso
          apply hAny
          have hkk : ((hid, rid, gid) : Nat × JVal × JVal) = k := by
            rw [← hk, hnew]; rfl
          rw [hkk]
          exact hpres

theorem applyStays_lastLink (W : List DBWrite) :
    ∀ (K : List (Nat × JVal × JVal)) (l : List Stay), wfStays K W →
      (∀ k ∈ K, l.any (fun s => decide (stayKey s = k)) = true) →
      ∀ s ∈ applyStays W l, ∀ g, lastStayLink W (stayKey s) = some g →
        s.guest = some g := by
  induction W with
  | nil => intro K l _ _ s hs g hlk; exact absurd hlk (by simp [lastStayLink])
  | cons w W ih =>
    intro K l hwf hK s hs g hlk
    cases hW : lastStayLink W (stayKey s) with
    | some g2 =>
      have hg2 : g2 = g := by
        simp only [lastStayLink, hW] at hlk
        simpa using hlk
      subst hg2
      cases w with
      | guestUp p n =>
        exact ih K l hwf hK s hs g2 hW
      | stayUp hid rid gid c o t =>
        refine ih ((hid, rid, gid) :: K) (applyStayW (DBWrite.stayUp hid rid gid c o t) l)
          hwf ?_ s hs g2 hW
        intro k2 hk2
        rcases List.mem_cons.mp hk2 with h1 | h1
        · subst h1; exact upKey_present_applyStayW hid rid gid c o t l
        · exact any_key_applyStayW _ l k2 (hK k2 h1)
      | stayLink hid rid gid g0 =>
        obtain ⟨hmemK, hwf2⟩ := hwf
        refine ih K (applyStayW (DBWrite.stayLink hid rid gid g0) l) hwf2 ?_ s hs g2 hW
        intro k2 hk2
        exact any_key_applyStayW _ l k2 (hK k2 hk2)
    | none =>
      simp only [lastStayLink, hW] at hlk
      cases w with
      | guestUp p n => exact absurd hlk (by simp)
      | stayUp hid rid gid c o t => exact absurd hlk (by simp)
      | stayLink hid rid gid g0 =>
        have hlk2 : (if ((hid, rid, gid) : Nat × JVal × JVal) = stayKey s
            then some g0 else none) = some g := hlk
        by_cases hke : ((hid, rid, gid) : Nat × JVal × JVal) = stayKey s
        · rw [if_pos hke] at hlk2
          have hg0 : g0 = g := by simpa using hlk2
          subst hg0
          obtain ⟨hmemK, hwf2⟩ := hwf
          have hpres : l.any (fun s2 => decide (stayKey s2 = (hid, rid, gid))) = true :=
            hK _ hmemK
          refine applyStays_guest_preserved (stayKey s) g0 W
            (applyStayW (DBWrite.stayLink hid rid gid g0) l) hW ?_ ?_ s hs rfl
          · rw [← hke]
            exact any_key_applyStayW _ l _ hpres
          · intro s2 hs2 hk2
            have hs3 : s2 ∈ setStayGuest l (hid, rid, gid) g0 := hs2
            exact mem_setStayGuest_guest l (hid, rid, gid) g0 s2 hs3 (by rw [hk2, ← hke])
        · rw [if_neg hke] at hlk2
          exact absurd hlk2 (by simp)

theorem applyStays_idem (W : List DBWrite) (l : List Stay) (hwf : wfStays [] W) :
    applyStays W (applyStays W l) = applyStays W l := by
  rw [applyStays_eq_map W (applyStays W l)
    (fun hid rid gid cin cout st hmem => upKey_present W l hid rid gid cin cout st hmem)]
  apply map_self_of_mem
  intro s hs
  rw [chainStay_eq_final]
  unfold finalStay
  cases hd : lastStayData W (stayKey s) with
  | none =>
    cases hl : lastStayLink W (stayKey s) with
    | none => rfl
    | some g =>
      have hg := applyStays_lastLink W [] l hwf (by simp) s hs g hl
      show ({ s with guest := some g } : Stay) = s
      rw [← hg]
  | some d =>
    obtain ⟨dc, dco, dst⟩ := d
    obtain ⟨h1, h2, h3⟩ := applyStays_lastData W l s hs (dc, dco, dst) hd
    have h1' : s.checkin = dc := h1
    have h2' : s.checkout = dco := h2
    have h3' : s.status = dst := h3
    cases hl : lastStayLink W (stayKey s) with
    | none =>
      show ({ s with checkin := dc, checkout := dco, status := dst } : Stay) = s
      rw [← h1', ← h2', ← h3']
    | some g =>
      have hg := applyStays_lastLink W [] l hwf (by simp) s hs g hl
      show ({ s with
                checkin := dc, checkout := dco, status := dst, guest := some g } : Stay) = s
      rw [← h1', ← h2', ← h3', ← hg]

theorem phone_guestElemUpd (w : DBWrite) (g : Guest) :
    (guestElemUpd w g).phone = g.phone := by
  cases w with
  | guestUp p n => exact phone_guestUpd _ _ _
  | stayUp hid rid gid cin cout st => rfl
  | stayLink hid rid gid ph => rfl

theorem any_phone_map (f : Guest → Guest) (hf : ∀ g, (f g).phone = g.phone)
    (l : List Guest) (p : JVal) :
    (l.map f).any (fun g => decide (g.phone = p)) =
      l.any (fun g => decide (g.phone = p)) := by
  rw [List.any_map]
  have : ((fun g => decide (g.phone = p)) ∘ f) = (fun g => decide (g.phone = p)) := by
    funext g
    simp [Function.comp, hf]
  rw [this]

theorem any_phone_applyGuestW (w : DBWrite) (l : List Guest) (p : JVal)
    (h : l.any (fun g => decide (g.phone = p)) = true) :
    (applyGuestW w l).any (fun g => decide (g.phone = p)) = true := by
  cases w with
  | guestUp p2 n =>
    simp only [applyGuestW]
    unfold updateOrCreateGuest
    split
    · rwa [any_phone_map _ (fun g => phone_guestUpd _ _ g) l p]
    · rw [List.any_append]
      simp [h]
  | stayUp hid rid gid cin cout st => exact h
  | stayLink hid rid gid ph => exact h

theorem any_phone_applyGuests (W : List DBWrite) :
    ∀ (l : List Guest) (p : JVal),
      l.any (fun g => decide (g.phone = p)) = true →
      (applyGuests W l).any (fun g => decide (g.phone = p)) = true := by
  induction W with
  | nil => intro l p h; exact h
  | cons w W ih => intro l p h; exact ih _ p (any_phone_applyGuestW w l p h)

theorem upPhone_present_applyGuestW (p n : JVal) (l : List Guest) :
    (applyGuestW (DBWrite.guestUp p n) l).any (fun g => decide (g.phone = p)) = true := by
  simp only [applyGuestW]
  unfold updateOrCreateGuest
  split
  · rwa [any_phone_map _ (fun g => phone_guestUpd _ _ g) l p]
  · rw [List.any_append]
    simp

theorem upPhone_present (W : List DBWrite) :
    ∀ (l : List Guest) (p n : JVal), DBWrite.guestUp p n ∈ W →
      (applyGuests W l).any (fun g => decide (g.phone = p)) = true := by
  induction W with
  | nil => intro l p n h; cases h
  | cons w W ih =>
    intro l p n h
    rcases List.mem_cons.mp h with h1 | h2
    · have heq : applyGuests (w :: W) l = applyGuests W (applyGuestW w l) := rfl
      rw [heq, ← h1]
      exact any_phone_applyGuests W _ _ (h1 ▸ upPhone_present_applyGuestW p n l)
    · exact ih _ _ _ h2

theorem applyGuestW_eq_map_of_present (w : DBWrite) (l : List Guest)
    (h : ∀ p n : JVal, w = DBWrite.guestUp p n →
      l.any (fun g => decide (g.phone = p)) = true) :
    applyGuestW w l = l.map (guestElemUpd w) := by
  cases w with
  | guestUp p n =>
    simp only [applyGuestW]
    unfold updateOrCreateGuest
    rw [if_pos (h p n rfl)]
    rfl
  | stayUp hid rid gid cin cout st => exact (map_self_of_mem _ l (fun g _ => rfl)).symm
  | stayLink hid rid gid ph => exact (map_self_of_mem _ l (fun g _ => rfl)).symm

theorem applyGuests_eq_map (W : List DBWrite) :
    ∀ l : List Guest,
      (∀ p n : JVal, DBWrite.guestUp p n ∈ W →
        l.any (fun g => decide (g.phone = p)) = true) →
      applyGuests W l = l.map (chainGuest W) := by
  induction W with
  | nil =>
    intro l h
    exact (map_self_of_mem _ l (fun g _ => rfl)).symm
  | cons w W ih =>
    intro l h
    show applyGuests W (applyGuestW w l) = _
    rw [applyGuestW_eq_map_of_present w l
      (fun p n he => h p n (by rw [he] at *; exact List.mem_cons_self _ _))]
    rw [ih (l.map (guestElemUpd w)) ?pres]
    case pres =>
      intro p n hmem
      rw [any_phone_map _ (fun g => phone_guestElemUpd w g) l _]
      exact h p n (List.mem_cons_of_mem _ hmem)
    rw [List.map_map]
    rfl

theorem chainGuest_eq_final : ∀ (W : List DBWrite) (g : Guest),
    chainGuest W g = finalGuest W g := by
  intro W
  induction W with
  | nil => intro g; rfl
  | cons w W ih =>
    intro g
    rw [show chainGuest (w :: W) g = chainGuest W (guestElemUpd w g) from rfl, ih]
    obtain ⟨gp, gn⟩ := g
    cases w with
    | stayUp hid rid gid cin cout st =>
      unfold finalGuest
      simp only [guestElemUpd, lastGuestName]
      cases lastGuestName W gp <;> rfl
    | stayLink hid rid gid ph =>
      unfold finalGuest
      simp only [guestElemUpd, lastGuestName]
      cases lastGuestName W gp <;> rfl
    | guestUp p n =>
      simp only [guestElemUpd, guestUpd]
      by_cases hp : gp = p
      · rw [if_pos hp]
        unfold finalGuest
        simp only [lastGuestName]
        cases hn : lastGuestName W gp with
        | some n2 => rfl
        | none => rw [if_pos hp.symm]
      · rw [if_neg hp]
        unfold finalGuest
        simp only [lastGuestName]
        cases hn : lastGuestName W gp with
        | some n2 => rfl
        | none => rw [if_neg (fun he => hp he.symm)]

theorem mem_updateOrCreateGuest_name (l : List Guest) (p n : JVal) :
    ∀ g ∈ updateOrCreateGuest l p n, g.phone = p → g.name = n := by
  unfold updateOrCreateGuest
  split
  · intro g hg hp
    obtain ⟨g0, hg0, rfl⟩ := List.mem_map.mp hg
    have h0 : g0.phone = p := by rw [phone_guestUpd] at hp; exact hp
    simp [guestUpd, h0]
  · rename_i hAny
    intro g hg hp
    rcases List.mem_append.mp hg with h1 | h2
    · exact absurd (List.any_eq_true.mpr ⟨g, h1, by simp [hp]⟩) hAny
    · have : g = ⟨p, n⟩ := by simpa using h2
      subst this
      rfl

theorem applyGuests_name_preserved (p n : JVal) :
    ∀ (W : List DBWrite) (l : List Guest), lastGuestName W p = none →
      (∀ g ∈ l, g.phone = p → g.name = n) →
      ∀ g ∈ applyGuests W l, g.phone = p → g.name = n := by
  intro W
  induction W with
  | nil => intro l _ hbase; exact hbase
  | cons w W ih =>
    intro l hlast hbase
    have hW : lastGuestName W p = none := by
      simp only [lastGuestName] at hlast
      cases hW2 : lastGuestName W p with
      | none => rfl
      | some m => rw [hW2] at hlast; exact absurd hlast (by simp)
    have hw : ∀ p2 n2 : JVal, w = DBWrite.guestUp p2 n2 → p2 ≠ p := by
      intro p2 n2 hwe hpe
      subst hwe
      simp only [lastGuestName, hW] at hlast
      rw [if_pos hpe] at hlast
      exact absurd hlast (by simp)
    show ∀ g ∈ applyGuests W (applyGuestW w l), _
    apply ih (applyGuestW w l) hW
    intro g hg hp
    cases w with
    | stayUp hid rid gid cin cout st => exact hbase g hg hp
    | stayLink hid rid gid ph => exact hbase g hg hp
    | guestUp p2 n2 =>
      have hne : p2 ≠ p := hw p2 n2 rfl
      simp only [applyGuestW] at hg
      unfold updateOrCreateGuest at hg
      split at hg
      · obtain ⟨g0, hg0, rfl⟩ := List.mem_map.mp hg
        have hp0 : g0.phone = p := by rw [phone_guestUpd] at hp; exact hp
        have heq : guestUpd p2 n2 g0 = g0 := by
          unfold guestUpd
          rw [if_neg (fun he => hne (by rw [← he, hp0]))]
        rw [heq]
        exact hbase g0 hg0 hp0
      · rcases List.mem_append.mp hg with h1 | h2
        · exact hbase g h1 hp
        · have : g = ⟨p2, n2⟩ := by simpa using h2
          subst this
          exact absurd hp hne

theorem applyGuests_lastName (W : List DBWrite) :
    ∀ (l : List Guest) (g : Guest), g ∈ applyGuests W l →
      ∀ n, lastGuestName W g.phone = some n → g.name = n := by
  induction W with
  | nil => intro l g hg n hn; exact absurd hn (by simp [lastGuestName])
  | cons w W ih =>
    intro l g hg n hn
    cases hW : lastGuestName W g.phone with
    | some n2 =>
      have hn2 : n2 = n := by
        simp only [lastGuestName, hW] at hn
        simpa using hn
      subst hn2
      exact ih (applyGuestW w l) g hg n2 hW
    | none =>
      simp only [lastGuestName, hW] at hn
      cases w with
      | stayUp hid rid gid cin cout st => exact absurd hn (by simp)
      | stayLink hid rid gid ph => exact absurd hn (by simp)
      | guestUp p2 n2 =>
        have hn3 : (if p2 = g.phone then some n2 else none) = some n := hn
        by_cases hpe : p2 = g.phone
        · rw [if_pos hpe] at hn3
          have : n2 = n := by simpa using hn3
          subst this
          refine applyGuests_name_preserved g.phone n2 W
            (applyGuestW (DBWrite.guestUp p2 n2) l) hW ?_ g hg rfl
          intro g2 hg2 hp2
          have hg3 : g2 ∈ updateOrCreateGuest l p2 n2 := hg2
          exact mem_updateOrCreateGuest_name l p2 n2 g2 hg3 (by rw [hp2, ← hpe])
        · rw [if_neg hpe] at hn3
          exact absurd hn3 (by simp)

theorem applyGuests_idem (W : List DBWrite) (l : List Guest) :
    applyGuests W (applyGuests W l) = applyGuests W l := by
  rw [applyGuests_eq_map W (applyGuests W l)
    (fun p n hmem => upPhone_present W l p n hmem)]
  apply map_self_of_mem
  intro g hg
  rw [chainGuest_eq_final]
  unfold finalGuest
  cases hn : lastGuestName W g.phone with
  | none => rfl
  | some n =>
    have hgn := applyGuests_lastName W l g hg n hn
    show ({ g with name := n } : Guest) = g
    rw [← hgn]

theorem wfStays_mono : ∀ (W : List DBWrite) (K K2 : List (Nat × JVal × JVal)),
    K ⊆ K2 → wfStays K W → wfStays K2 W := by
  intro W
  induction W with
  | nil => intro K K2 _ _; trivial
  | cons w W ih =>
    intro K K2 hsub hwf
    cases w with
    | stayUp hid rid gid c o t =>
      exact ih _ _ (List.cons_subset_cons _ hsub) hwf
    | stayLink hid rid gid g =>
      obtain ⟨hm, hwf2⟩ := hwf
      exact ⟨hsub hm, ih _ _ hsub hwf2⟩
    | guestUp p n => exact ih _ _ hsub hwf

theorem wfStays_append : ∀ (A B : List DBWrite) (K : List (Nat × JVal × JVal)),
    wfStays K A → wfStays K B → wfStays K (A ++ B) := by
  intro A
  induction A with
  | nil => intro B K _ hb; exact hb
  | cons w A ih =>
    intro B K ha hb
    cases w with
    | stayUp hid rid gid c o t =>
      show wfStays ((hid, rid, gid) :: K) (A ++ B)
      exact ih B _ ha (wfStays_mono B K _ (fun x hx => List.mem_cons_of_mem _ hx) hb)
    | stayLink hid rid gid g =>
      obtain ⟨hm, ha2⟩ := ha
      exact ⟨hm, ih B K ha2 hb⟩
    | guestUp p n => exact ih B K ha hb

theorem wf_eventWrites (env : Env) (hid : Nat) (ev : JVal) :
    ∀ K, wfStays K (eventWrites env hid ev).1 := by
  intro K
  unfold eventWrites
  repeat' split
  all_goals simp [wfStays]

theorem wf_webhookWrites (env : Env) (hid : Nat) :
    ∀ (evs : List JVal) (K), wfStays K (webhookWrites env hid evs).1 := by
  intro evs
  induction evs with
  | nil => intro K; trivial
  | cons ev rest ih =>
    intro K
    simp only [webhookWrites]
    cases hw : eventWrites env hid ev with
    | mk w r =>
      cases r with
      | some err =>
        have h := wf_eventWrites env hid ev K
        rw [hw] at h
        exact h
      | none =>
        cases hw2 : webhookWrites env hid rest with
        | mk w2 r2 =>
          have h1 := wf_eventWrites env hid ev K
          rw [hw] at h1
          have h2 := ih K
          rw [hw2] at h2
          exact wfStays_append w w2 K h1 h2

theorem applyWrites_idem (W : List DBWrite) (db : DB) (hwf : wfStays [] W) :
    applyWrites W (applyWrites W db) = applyWrites W db := by
  rw [applyWrites_split W db]
  rw [applyWrites_split W
    ({ hotels := db.hotels, stays := applyStays W db.stays,
       guests := applyGuests W db.guests } : DB)]
  show ({ hotels := db.hotels, stays := applyStays W (applyStays W db.stays),
          guests := applyGuests W (applyGuests W db.guests) } : DB) = _
  rw [applyStays_idem W db.stays hwf, applyGuests_idem W db.guests]

/-- C2: re-invoking `handle_webhook` with the same payload is idempotent —
the state after the second invocation equals the state after the first,
and the second invocation returns the same result: no duplicate Stay or
Guest records are created, existing ones are updated in place.  The
external service is modelled as a deterministic function of the looked-up
ids, so the second run fetches the same details. -/
theorem handle_webhook_idempotent (env : Env) (db : DB) (wd : JVal) :
    handle_webhook env (handle_webhook env db wd).1 wd = handle_webhook env db wd := by
  cases h1 : wd.getKey "HotelId" with
  | error e =>
    have hfst : (handle_webhook env db wd).1 = db := by
      simp only [handle_webhook, h1]
    rw [hfst]
  | ok hid =>
    cases h2 : getHotel db.hotels hid with
    | error e =>
      have hb : handleBody env db wd hid = (db, some e) := by
        simp only [handleBody, h2]
      have hfst : (handle_webhook env db wd).1 = db := by
        simp only [handle_webhook, h1, hb]
        split <;> rfl
      rw [hfst]
    | ok hotel =>
      cases h3 : wd.getKey "Events" with
      | error e =>
        have hb : handleBody env db wd hid = (db, some e) := by
          simp only [handleBody, h2, h3]
        have hfst : (handle_webhook env db wd).1 = db := by
          simp only [handle_webhook, h1, hb]
          split <;> rfl
        rw [hfst]
      | ok events =>
        cases h4 : jIterate events with
        | error e =>
          have hb : handleBody env db wd hid = (db, some e) := by
            simp only [handleBody, h2, h3, h4]
          have hfst : (handle_webhook env db wd).1 = db := by
            simp only [handle_webhook, h1, hb]
            split <;> rfl
          rw [hfst]
        | ok evs =>
          cases hww : webhookWrites env hotel.id evs with
          | mk W r =>
            have hwf : wfStays [] W := by
              have h := wf_webhookWrites env hotel.id evs []
              rw [hww] at h
              exact h
            have hpe : processEvents env hotel.id db evs = (applyWrites W db, r) := by
              rw [processEvents_eq_writes env hotel.id evs db, hww]
            have hpe2 : processEvents env hotel.id (applyWrites W db) evs =
                (applyWrites W db, r) := by
              rw [processEvents_eq_writes env hotel.id evs (applyWrites W db), hww]
              show (applyWrites W (applyWrites W db), r) = _
              rw [applyWrites_idem W db hwf]
            have hh : (applyWrites W db).hotels = db.hotels := by
              rw [applyWrites_split]
            have hb1 : handleBody env db wd hid = (applyWrites W db, r) := by
              simp only [handleBody, h2, h3, h4, hpe]
            have hb2 : handleBody env (applyWrites W db) wd hid = (applyWrites W db, r) := by
              simp only [handleBody, hh, h2, h3, h4, hpe2]
            cases r with
            | none =>
              have hr1 : handle_webhook env db wd = (applyWrites W db, .ok true) := by
                simp only [handle_webhook, h1, hb1]
              have hr2 : handle_webhook env (applyWrites W db) wd =
                  (applyWrites W db, .ok true) := by
                simp only [handle_webhook, h1, hb2]
              rw [hr1]
              exact hr2
            | some err =>
              by_cases hapi : err.isAPIError = true
              · have hr1 : handle_webhook env db wd = (applyWrites W db, .ok true) := by
                  simp only [handle_webhook, h1, hb1, hapi, if_true]
                have hr2 : handle_webhook env (applyWrites W db) wd =
                    (applyWrites W db, .ok true) := by
                  simp only [handle_webhook, h1, hb2, hapi, if_true]
                rw [hr1]
                exact hr2
              · have hne : err.isAPIError = false := by
                  simpa using hapi
                have hr1 : handle_webhook env db wd = (applyWrites W db, .error err) := by
                  simp only [handle_webhook, h1, hb1, hne, Bool.false_eq_true, if_false]
                have hr2 : handle_webhook env (applyWrites W db) wd =
                    (applyWrites W db, .error err) := by
                  simp only [handle_webhook, h1, hb2, hne, Bool.false_eq_true, if_false]
                rw [hr1]
                exact hr2

/-- C3: `clean_webhook_payload` returns the structured record the decoder
produces whenever the payload is well-formed JSON, and fails with a
`ValueError` when it is not. -/
theorem clean_webhook_payload_spec (parse : String → Option JVal) (payload : String) :
    (∀ v, parse payload = some v → clean_webhook_payload parse payload = .ok v) ∧
    (parse payload = none →
      ∃ m, clean_webhook_payload parse payload = .error (.valueError m)) := by
  constructor
  · intro v hv
    simp [clean_webhook_payload, hv]
  · intro hv
    exact ⟨"Error decoding", by simp [clean_webhook_payload, hv]⟩

/-- Witness for C3: a well-formed payload decodes, a malformed one raises
a `ValueError`. -/
theorem clean_webhook_payload_spec_witness :
    clean_webhook_payload envT.parse "RESJSON" = .ok resObjT ∧
    ∃ m, clean_webhook_payload envT.parse "oops" = .error (.valueError m) :=
  ⟨(clean_webhook_payload_spec envT.parse "RESJSON").1 resObjT rfl,
   (clean_webhook_payload_spec envT.parse "oops").2 rfl⟩

/-- C4 (code bug): `update_tomorrows_stays` is an unimplemented stub — it
returns `True` without consulting the external service (its result does
not depend on the environment) and leaves the database untouched, against
its own docstring, which requires fetching tomorrow's reservations with
`get_reservations_between_dates` and upserting Stays and Guests. -/
theorem update_tomorrows_stays_stub (env env2 : Env) (db : DB) :
    update_tomorrows_stays env db = (true, db) ∧
    update_tomorrows_stays env db = update_tomorrows_stays env2 db :=
  ⟨rfl, rfl⟩

/-- C5: when reading the hotel id succeeds and the webhook body stops with
an `APIError`, `handle_webhook` swallows the error and still reports
success. -/
theorem handle_webhook_swallows_api_error (env : Env) (db : DB) (wd hid : JVal)
    (err : PyError)
    (h1 : wd.getKey "HotelId" = .ok hid)
    (h2 : (handleBody env db wd hid).2 = some err)
    (h3 : err.isAPIError = true) :
    (handle_webhook env db wd).2 = .ok true := by
  simp only [handle_webhook, h1]
  cases hbb : handleBody env db wd hid with
  | mk db2 r =>
    rw [hbb] at h2
    have hr : r = some err := h2
    subst hr
    simp [h3]

/-- Witness for C5: the test reservation "R9" is unknown to the external
service, so processing raises an `APIError`; the handler still returns
`True`. -/
theorem handle_webhook_swallows_api_error_witness :
    (handle_webhook envT dbT wdApiT).2 = .ok true :=
  handle_webhook_swallows_api_error envT dbT wdApiT (JVal.jnum 7)
    (PyError.apiError "api down") rfl rfl rfl

/-- C6: `stay_has_breakfast` returns the `BreakfastIncluded` field of the
fetched reservation details when the lookup succeeds, and returns the
unknown sentinel `None` without raising when the external call fails with
an `APIError`. -/
theorem stay_has_breakfast_spec (env : Env) (stay : Stay) :
    (∀ (rs : String) (obj b : JVal),
      env.reservationDetails stay.pms_reservation_id = .ok rs →
      env.parse rs = some obj →
      obj.getKey "BreakfastIncluded" = .ok b →
      stay_has_breakfast env stay = .ok (some b)) ∧
    (∀ m, env.reservationDetails stay.pms_reservation_id = .error m →
      stay_has_breakfast env stay = .ok none) := by
  constructor
  · intro rs obj b h1 h2 h3
    simp only [stay_has_breakfast, h1, clean_webhook_payload, h2, h3]
  · intro m h1
    simp only [stay_has_breakfast, h1]

/-- Witness for C6 at the test stay: breakfast is included for "R1", and an
unknown reservation id yields `None`. -/
theorem stay_has_breakfast_spec_witness :
    stay_has_breakfast envT stayT = .ok (some (JVal.jbool true)) ∧
    stay_has_breakfast envT { stayT with pms_reservation_id := JVal.jstr "R9" } =
      .ok none :=
  ⟨(stay_has_breakfast_spec envT stayT).1 "RESJSON" resObjT (JVal.jbool true) rfl rfl rfl,
   (stay_has_breakfast_spec envT { stayT with pms_reservation_id := JVal.jstr "R9" }).2
     "api down" rfl⟩

/-- C7: `get_pms` capitalizes the name, prepends the fixed prefix `PMS_`,
and returns a fresh instance when a class of that name exists in the
module namespace, else the falsy sentinel; the instance's `name` property
is its class name with the four-character prefix stripped, so
`get_pms "mews"` yields an adapter named "Mews" and
`get_pms "nonexistent"` yields the sentinel. -/
theorem get_pms_spec :
    get_pms "mews" = some ⟨"PMS_Mews"⟩ ∧
    PMSInstance.name ⟨"PMS_Mews"⟩ = "Mews" ∧
    get_pms "nonexistent" = none ∧
    (∀ nm inst, get_pms nm = some inst →
      inst.className = "PMS_" ++ pyCapitalize nm ∧
      inst.name = ("PMS_" ++ pyCapitalize nm).drop 4) := by
  refine ⟨rfl, rfl, rfl, ?_⟩
  intro nm inst h
  simp only [get_pms] at h
  by_cases hm : ("PMS_" ++ pyCapitalize nm) ∈ moduleClassNames
  · rw [if_pos hm] at h
    have hi : inst = ⟨"PMS_" ++ pyCapitalize nm⟩ := by simpa using h.symm
    subst hi
    exact ⟨rfl, rfl⟩
  · rw [if_neg hm] at h
    exact absurd h (by simp)

/-- Witness for C7: the general clause applied to "mews". -/
theorem get_pms_spec_witness :
    (⟨"PMS_Mews"⟩ : PMSInstance).className = "PMS_" ++ pyCapitalize "mews" ∧
    (⟨"PMS_Mews"⟩ : PMSInstance).name = ("PMS_" ++ pyCapitalize "mews").drop 4 :=
  get_pms_spec.2.2.2 "mews" ⟨"PMS_Mews"⟩ rfl

/-- C8: `validate_phone_number` is a total boolean: a parse failure is
caught and converted to `false`, a parsed number yields the validity
check; in particular "+14155552671" validates and "abc" does not. -/
theorem validate_phone_number_spec :
    (∀ s, phonenumbers_parse s = none → validate_phone_number s = false) ∧
    (∀ s parsed, phonenumbers_parse s = some parsed →
      validate_phone_number s = phonenumbers_is_valid_number parsed) ∧
    validate_phone_number "+14155552671" = true ∧
    validate_phone_number "abc" = false := by
  refine ⟨?_, ?_, ?_, ?_⟩
  · intro s h
    simp [validate_phone_number, h]
  · intro s parsed h
    simp [validate_phone_number, h]
  · rfl
  · rfl

/-- Witness for C8: the empty string fails to parse and validates false. -/
theorem validate_phone_number_spec_witness : validate_phone_number "" = false :=
  validate_phone_number_spec.1 "" rfl

/-- C9: `handle_webhook` discards the result of `validate_phone_number`:
the Guest is upserted with the fetched phone and name even when the phone
is invalid, and the handler still reports success. -/
theorem handle_webhook_ignores_phone_validity
    (env : Env) (db : DB) (wd event value resObj guestObj : JVal)
    (hid rid gid cin cout st nm : JVal) (ps : String) (rs gs : String) (hotel : Hotel)
    (h1 : wd.getKey "HotelId" = .ok hid)
    (h2 : getHotel db.hotels hid = .ok hotel)
    (h3 : wd.getKey "Events" = .ok (JVal.jarr [event]))
    (h4 : event.getKey "Value" = .ok value)
    (h5 : value.getKey "ReservationId" = .ok rid)
    (h6 : env.reservationDetails rid = .ok rs)
    (h7 : env.parse rs = some resObj)
    (h8 : resObj.getKey "GuestId" = .ok gid)
    (h9 : env.guestDetails gid = .ok gs)
    (h10 : env.parse gs = some guestObj)
    (h11 : resObj.getKey "CheckInDate" = .ok cin)
    (h12 : resObj.getKey "CheckOutDate" = .ok cout)
    (h13 : resObj.getKey "Status" = .ok st)
    (h14 : guestObj.getKey "Phone" = .ok (.jstr ps))
    (h15 : guestObj.getKey "Name" = .ok nm)
    (_hval : validate_phone_number ps = false)
    (hu2 : (db.guests.filter fun g => decide (g.phone = JVal.jstr ps)).length ≤ 1) :
    (handle_webhook env db wd).2 = .ok true ∧
    ((handle_webhook env db wd).1.guests.filter
        fun g => decide (g.phone = JVal.jstr ps)) = [⟨.jstr ps, nm⟩] := by
  rw [handle_webhook_single_event_run env db wd event value resObj guestObj hid rid gid
    cin cout st (.jstr ps) nm rs gs hotel h1 h2 h3 h4 h5 h6 h7 h8 h9 h10 h11 h12 h13 h14 h15]
  exact ⟨rfl, upsertGuest_filter db.guests (.jstr ps) nm hu2⟩

/-- Witness for C9: guest "G2" carries phone "abc", which the validator
rejects, yet the Guest record is upserted. -/
theorem handle_webhook_ignores_phone_validity_witness :
    (handle_webhook envT dbT wdBadPhoneT).2 = .ok true ∧
    ((handle_webhook envT dbT wdBadPhoneT).1.guests.filter
        fun g => decide (g.phone = JVal.jstr "abc")) =
      [⟨JVal.jstr "abc", JVal.jstr "No Phone"⟩] :=
  handle_webhook_ignores_phone_validity envT dbT wdBadPhoneT _ _ resObj2T guestObjBad
    _ _ _ _ _ _ _ "abc" _ _ hotelT rfl rfl rfl rfl rfl rfl rfl rfl rfl rfl rfl rfl rfl
    rfl rfl rfl (by decide)

/-- C10: `handle_webhook` catches only `APIError`.  A missing "HotelId"
key, an unknown hotel, any other exception raised inside the body
(missing "Events"/"Value"/"ReservationId" keys included), and the
`ValueError` raised when the external service returns malformed JSON all
propagate to the caller; no success flag is returned. -/
theorem handle_webhook_propagates_non_api (env : Env) (db : DB) (wd : JVal) :
    (∀ e, wd.getKey "HotelId" = .error e → handle_webhook env db wd = (db, .error e)) ∧
    (∀ hid, wd.getKey "HotelId" = .ok hid →
      getHotel db.hotels hid = .error .doesNotExist →
      handle_webhook env db wd = (db, .error .doesNotExist)) ∧
    (∀ hid err, wd.getKey "HotelId" = .ok hid →
      (handleBody env db wd hid).2 = some err → err.isAPIError = false →
      (handle_webhook env db wd).2 = .error err) ∧
    (∀ hid hotel event value rid rs,
      wd.getKey "HotelId" = .ok hid → getHotel db.hotels hid = .ok hotel →
      wd.getKey "Events" = .ok (JVal.jarr [event]) →
      event.getKey "Value" = .ok value → value.getKey "ReservationId" = .ok rid →
      env.reservationDetails rid = .ok rs → env.parse rs = none →
      (handle_webhook env db wd).2 = .error (.valueError "Error decoding")) := by
  refine ⟨?_, ?_, ?_, ?_⟩
  · intro e h
    simp only [handle_webhook, h]
  · intro hid h1 h2
    simp only [handle_webhook, h1, handleBody, h2]
    rfl
  · intro hid err h1 h2 h3
    simp only [handle_webhook, h1]
    cases hbb : handleBody env db wd hid with
    | mk db2 r =>
      rw [hbb] at h2
      have hr : r = some err := h2
      subst hr
      simp [h3]
  · intro hid hotel event value rid rs h1 h2 h3 h4 h5 h6 h7
    unfold handle_webhook handleBody processEvents processEvent clean_webhook_payload
    simp only [h1, h2, h3, jIterate, h4, h5, h6, h7]
    rfl

/-- Witness for C10: a payload without "HotelId" raises `KeyError`. -/
theorem handle_webhook_propagates_non_api_witness :
    handle_webhook envT dbT (JVal.jobj []) = (dbT, .error (.keyError "HotelId")) :=
  (handle_webhook_propagates_non_api envT dbT (JVal.jobj [])).1 (.keyError "HotelId") rfl
